import Mathlib

/-!
Verification development for the bhtom_photometry repository.

The Python sources are shallowly embedded as Lean definitions:

* Floating-point catalog values that may be NaN/infinite are modelled by
  `PyFloat` (a rational payload or one of the non-finite tags); coordinates,
  times and tolerances are modelled as rationals.
* The astropy call `SkyCoord.separation` is an external-library primitive;
  it is modelled as an explicit parameter `sep : SepFun` of every function
  that uses it, so all theorems hold for an arbitrary separation function.
* pandas DataFrames become lists of records (row order = catalog order);
  `numpy.argmin` (first occurrence of the minimum) becomes `argminFirst`;
  Python dicts keep insertion order and become association lists.
* Unused catalog columns (NUMBER, XWIN_IMAGE, YWIN_IMAGE) never enter any
  computation and are omitted from the detection record.
-/

attribute [local semireducible] Rat.sub Rat.add Rat.mul Rat.inv Rat.ofScientific

/-- An executable absolute value on rationals (`np.abs`); the lattice-based
`|q|` of Mathlib does not kernel-reduce, this one does. -/
def ratAbs (q : ℚ) : ℚ := if q < 0 then -q else q

/-- A Python float as stored in a catalog column: finite rational or a
non-finite value (`nan`, `inf`, `ninf`). -/
inductive PyFloat where
  | fin (q : ℚ)
  | nan
  | inf
  | ninf
deriving DecidableEq

/-- `np.isfinite` on a `PyFloat`. -/
def PyFloat.isfinite : PyFloat → Bool
  | PyFloat.fin _ => true
  | _ => false

/-- One row of a per-epoch source catalog (columns actually used by the
matching code: ALPHA_J2000, DELTA_J2000, MAG_AUTO, MAGERR_AUTO). -/
structure Detection where
  alpha : ℚ
  delta : ℚ
  mag : PyFloat
  magerr : PyFloat
deriving DecidableEq

/-- One entry of `photometry_data`: observation time `mjd`, the source
catalog `df`, and the `band` label from `calibration_data` (absent key
modelled as `none`, read back with default `""` as in the Python
`calibration_data.get('band', '')`). -/
structure Epoch where
  mjd : ℚ
  band : Option String
  df : List Detection
deriving DecidableEq

/-- One row of the asteroid ephemeris table (`positions_df`). -/
structure EphemEntry where
  mjd : ℚ
  ra : ℚ
  dec : ℚ
deriving DecidableEq

/-- The external astropy great-circle separation, in arcseconds:
`sep raRef decRef raObj decObj`. Modelled as an opaque parameter. -/
abbrev SepFun := ℚ → ℚ → ℚ → ℚ → ℚ

/-- Pair each list element with its positional index, starting at `n`
(models the pandas RangeIndex, for which label and position coincide). -/
def indexed (n : ℕ) : List α → List (ℕ × α)
  | [] => []
  | x :: xs => (n, x) :: indexed (n + 1) xs

/-- First occurrence of the minimum of `f` over a list
(the semantics of `numpy.argmin`). -/
def argminFirst (f : α → ℚ) : List α → Option α
  | [] => none
  | x :: xs =>
    match argminFirst f xs with
    | none => some x
    | some y => if f x ≤ f y then some x else some y

/-- Minimum of a list of rationals (pandas `.min()`), `none` on empty. -/
def listMin : List ℚ → Option ℚ
  | [] => none
  | x :: xs =>
    match listMin xs with
    | none => some x
    | some m => some (min x m)

/-- Maximum of a list of rationals (pandas `.max()`), `none` on empty. -/
def listMax : List ℚ → Option ℚ
  | [] => none
  | x :: xs =>
    match listMax xs with
    | none => some x
    | some m => some (max x m)

/-- Python `int()` on a rational: truncation toward zero. -/
def pyInt (q : ℚ) : ℤ :=
  if 0 ≤ q then ⌊q⌋ else ⌈q⌉

/-- The coordinate-validity filter applied in `find_nearest_object`
(process_photometry.py lines 39-44): DELTA_J2000 in [-90, 90] and
ALPHA_J2000 in [0, 360). -/
def validCoord (d : Detection) : Bool :=
  (-90 ≤ d.delta) && (d.delta ≤ 90) && (0 ≤ d.alpha) && (d.alpha < 360)

/-- Default match tolerance of `find_nearest_object` (arcseconds). -/
def default_max_distance : ℚ := 5

/-- `find_nearest_object(df, ra, dec, max_distance)`
(process_photometry.py lines 36-66): filter invalid coordinates, take the
separation-minimizing valid row (first occurrence on ties, as `np.argmin`),
return `none` if there is no valid row or the minimal separation strictly
exceeds `max_distance`, else the original row index and the separation. -/
def find_nearest_object (sep : SepFun) (df : List Detection) (ra dec maxDistance : ℚ) :
    Option (ℕ × ℚ) :=
  match argminFirst (fun p => sep ra dec p.2.alpha p.2.delta)
      ((indexed 0 df).filter (fun p => validCoord p.2)) with
  | none => none
  | some p =>
    if maxDistance < sep ra dec p.2.alpha p.2.delta then none
    else some (p.1, sep ra dec p.2.alpha p.2.delta)

/-- `find_nearest_mjd_position(positions_df, mjd)`
(process_photometry.py lines 68-72): the ephemeris row whose MJD is closest
to `mjd` (`np.abs(...).argmin()`, so first occurrence on ties). -/
def find_nearest_mjd_position (positions : List EphemEntry) (mjd : ℚ) : Option EphemEntry :=
  argminFirst (fun p => ratAbs (p.mjd - mjd)) positions


/-- Placeholder detection used to totalize `df.iloc[...]`; the indices fed
to it always come from `find_nearest_object`, which only returns in-range
indices, so the placeholder is never selected. -/
def junkDetection : Detection := ⟨0, 0, PyFloat.nan, PyFloat.nan⟩

/-- One output row of `process_static_object_photometry`
(process_photometry.py lines 185-194). -/
structure StaticRecord where
  mjd : ℚ
  targetRA : ℚ
  targetDec : ℚ
  targetSep : ℚ
  targetMag : PyFloat
  targetMagerr : PyFloat
  comp1Mag : PyFloat
  comp2Mag : PyFloat
deriving DecidableEq

/-- Loop body of `process_static_object_photometry` (lines 159-195): match
target and both comparison stars at the default tolerance, skip the epoch
if any role is unmatched or any extracted magnitude is non-finite. -/
def process_static_epoch (sep : SepFun) (target comp1 comp2 : ℚ × ℚ) (e : Epoch) :
    Option StaticRecord :=
  match find_nearest_object sep e.df target.1 target.2 default_max_distance,
        find_nearest_object sep e.df comp1.1 comp1.2 default_max_distance,
        find_nearest_object sep e.df comp2.1 comp2.2 default_max_distance with
  | some (targetIdx, targetSep), some (comp1Idx, _), some (comp2Idx, _) =>
    let td := e.df.getD targetIdx junkDetection
    let c1d := e.df.getD comp1Idx junkDetection
    let c2d := e.df.getD comp2Idx junkDetection
    if td.mag.isfinite && td.magerr.isfinite && c1d.mag.isfinite && c2d.mag.isfinite then
      some ⟨e.mjd, td.alpha, td.delta, targetSep, td.mag, td.magerr, c1d.mag, c2d.mag⟩
    else none
  | _, _, _ => none

/-- `process_static_object_photometry` (lines 146-197). The epoch dict is
modelled as a list in insertion order; `continue` becomes `filterMap`. -/
def process_static_object_photometry (sep : SepFun) (target comp1 comp2 : ℚ × ℚ)
    (photometry_data : List Epoch) : List StaticRecord :=
  photometry_data.filterMap (process_static_epoch sep target comp1 comp2)

/-- One output row of `process_asteroid_photometry` (lines 132-141). -/
structure AstRecord where
  mjd : ℚ
  astRA : ℚ
  astDec : ℚ
  astSep : ℚ
  astMag : PyFloat
  astMagerr : PyFloat
  comp1Mag : PyFloat
  comp2Mag : PyFloat
deriving DecidableEq

/-- Body of the per-epoch asteroid loop after the MJD coverage check
(lines 92-142): comparison stars at the default 5 arcsec tolerance, then the
ephemeris entry nearest in MJD, then the asteroid at 20 arcsec
(`max_distance=20.0`, line 116), then the finiteness guard. -/
def asteroid_epoch_body (sep : SepFun) (comp1 comp2 : ℚ × ℚ)
    (positions : List EphemEntry) (e : Epoch) : Option AstRecord :=
  match find_nearest_object sep e.df comp1.1 comp1.2 default_max_distance,
        find_nearest_object sep e.df comp2.1 comp2.2 default_max_distance with
  | some (comp1Idx, _), some (comp2Idx, _) =>
    match find_nearest_mjd_position positions e.mjd with
    | none => none
    | some astPos =>
      match find_nearest_object sep e.df astPos.ra astPos.dec 20 with
      | none => none
      | some (astIdx, astSep) =>
        let ad := e.df.getD astIdx junkDetection
        let c1d := e.df.getD comp1Idx junkDetection
        let c2d := e.df.getD comp2Idx junkDetection
        if ad.mag.isfinite && ad.magerr.isfinite && c1d.mag.isfinite && c2d.mag.isfinite then
          some ⟨e.mjd, astPos.ra, astPos.dec, astSep, ad.mag, ad.magerr, c1d.mag, c2d.mag⟩
        else none
  | _, _ => none

/-- Per-epoch step of `process_asteroid_photometry` (lines 83-142): the
coverage check `if mjd < mjd_min or mjd > mjd_max: continue` (line 88)
rejects the epoch before any matching. -/
def process_asteroid_epoch (sep : SepFun) (comp1 comp2 : ℚ × ℚ) (mjdMin mjdMax : ℚ)
    (positions : List EphemEntry) (e : Epoch) : Option AstRecord :=
  if e.mjd < mjdMin ∨ mjdMax < e.mjd then none
  else asteroid_epoch_body sep comp1 comp2 positions e

/-- `positions_df = positions_df.sort_values('MJD')` (line 79). -/
def sortByMJD (positions : List EphemEntry) : List EphemEntry :=
  List.insertionSort (fun a b => a.mjd ≤ b.mjd) positions

/-- `process_asteroid_photometry` (lines 74-144): sort the ephemeris by MJD,
compute its MJD range, then run the per-epoch loop over the epoch list. An
empty ephemeris yields an empty result. -/
def process_asteroid_photometry (sep : SepFun) (comp1 comp2 : ℚ × ℚ)
    (positions : List EphemEntry) (photometry_data : List Epoch) : List AstRecord :=
  match listMin ((sortByMJD positions).map EphemEntry.mjd),
        listMax ((sortByMJD positions).map EphemEntry.mjd) with
  | some mjdMin, some mjdMax =>
    photometry_data.filterMap
      (process_asteroid_epoch sep comp1 comp2 mjdMin mjdMax (sortByMJD positions))
  | _, _ => []

/-- Python `str.upper()`, modelled character-wise over the string data (an
executable stand-in for `String.toUpper`, whose `mapAux` recursion does not
kernel-reduce). -/
def pyUpper (s : String) : String := String.mk (s.data.map Char.toUpper)

/-- `filter_photometry_data` (lines 281-302): `None` is the identity; any
other filter name keeps exactly the epochs whose band label (default `""`
for a missing key) equals it case-insensitively, via `.upper()` on both
sides. -/
def filter_photometry_data (photometry_data : List Epoch) (filter_name : Option String) :
    List Epoch :=
  match filter_name with
  | none => photometry_data
  | some fn => photometry_data.filter (fun e => pyUpper (e.band.getD "") == pyUpper fn)

/-- One row of `photometry_results.csv` as re-read by the downstream
converters and the comparison script (all values finite rationals). -/
structure ResultsRow where
  mjd : ℚ
  targetRA : ℚ
  targetDec : ℚ
  targetSep : ℚ
  targetMag : ℚ
  targetMagerr : ℚ
  comp1Mag : ℚ
  comp2Mag : ℚ
deriving DecidableEq

/-- One row of the external AIJ dataset of compare_photometry.py after the
JD→MJD conversion of line 16 (only the columns read by the matching loop). -/
structure AijRow where
  mjd : ℚ
  relFluxT1 : ℚ
  relFluxC2 : ℚ
  relFluxC3 : ℚ
deriving DecidableEq

/-- One element of `matching_pairs` (compare_photometry.py lines 42-52). -/
structure MatchedPair where
  mjdOur : ℚ
  targetMag : ℚ
  targetMagerr : ℚ
  comp1Mag : ℚ
  comp2Mag : ℚ
  mjdOther : ℚ
  relFluxT1 : ℚ
  relFluxC2 : ℚ
  relFluxC3 : ℚ
deriving DecidableEq

/-- `TIME_THRESHOLD = 180.0 / (24 * 3600)` (line 29): 180 seconds in days. -/
def TIME_THRESHOLD : ℚ := 180 / (24 * 3600)

/-- The pair record assembled at compare_photometry.py lines 42-52. -/
def mkMatchedPair (r : ResultsRow) (o : AijRow) : MatchedPair :=
  ⟨r.mjd, r.targetMag, r.targetMagerr, r.comp1Mag, r.comp2Mag,
   o.mjd, o.relFluxT1, o.relFluxC2, o.relFluxC3⟩

/-- Body of the matching loop (lines 35-52): nearest-in-time row of the
other dataset (`argmin`, first occurrence), kept iff the minimal time
difference is at most `TIME_THRESHOLD` (line 41, inclusive). -/
def match_row (other : List AijRow) (r : ResultsRow) : Option MatchedPair :=
  match argminFirst (fun o => ratAbs (o.mjd - r.mjd)) other with
  | none => none
  | some o =>
    if ratAbs (o.mjd - r.mjd) ≤ TIME_THRESHOLD then some (mkMatchedPair r o) else none

/-- The full `matching_pairs` accumulation (lines 32-52). -/
def matching_pairs (results : List ResultsRow) (other : List AijRow) : List MatchedPair :=
  results.filterMap (match_row other)

/-- `time_offset = results['MJD'].min()` in `plot_magnitude_ratios`
(process_photometry.py line 215): the raw column minimum, not floored. -/
def time_offset_plot (results : List StaticRecord) : Option ℚ :=
  listMin (results.map StaticRecord.mjd)

/-- `results['TIME_HOURS'] = (results['MJD'] - time_offset) * 24`
(process_photometry.py line 216). -/
def time_hours_plot (results : List StaticRecord) (offset : ℚ) : List ℚ :=
  results.map (fun r => (r.mjd - offset) * 24)

/-- `time_offset = int(min(results['MJD'].min(), other['MJD'].min()))`
(compare_photometry.py line 19); Python `int()` truncates toward zero. -/
def time_offset_compare (results : List ResultsRow) (other : List AijRow) : Option ℤ :=
  match listMin (results.map ResultsRow.mjd), listMin (other.map AijRow.mjd) with
  | some a, some b => some (pyInt (min a b))
  | _, _ => none

/-- `time_hours_bht = (merged['MJD_our'] - time_offset) * 24`
(compare_photometry.py line 82). -/
def time_hours_compare (merged : List MatchedPair) (offset : ℤ) : List ℚ :=
  merged.map (fun p => (p.mjdOur - (offset : ℚ)) * 24)

/-- `mag_to_flux(mag, mag_err, reference_flux)` (convert_to_flux.py lines
11-33): `flux = reference_flux * 10**(-mag / 2.5)`; when an error is given,
`flux_err = flux * (np.log(10) / 2.5) * mag_err`. Real-valued, so this
definition is noncomputable (exact transcendental arithmetic). -/
noncomputable def mag_to_flux (mag : ℝ) (mag_err : Option ℝ) (reference_flux : ℝ) :
    ℝ × Option ℝ :=
  (reference_flux * (10 : ℝ) ^ (-mag / 2.5),
   mag_err.map (fun me => reference_flux * (10 : ℝ) ^ (-mag / 2.5) * (Real.log 10 / 2.5) * me))

/-- One row of `photometry_results_diffmag.dat`
(convert_to_diffmag.py lines 57-63). -/
structure DiffMagRow where
  jdUTC : ℚ
  diffMag : ℚ
  errDiffMag : ℚ
deriving DecidableEq

/-- `convert_to_differential_magnitude` (convert_to_diffmag.py lines 36-63):
column-wise `JD_UTC = MJD + 2400000.5` (line 37), `diff_mag = TARGET_MAG -
COMP1_MAG` (line 40), `error_diff_mag = TARGET_MAGERR` (line 45, the target
error alone), then the output row loop of lines 59-63. -/
def convert_to_differential_magnitude (df : List ResultsRow) : List DiffMagRow :=
  let jd := df.map (fun r => r.mjd + 2400000.5)
  let diffMag := df.map (fun r => r.targetMag - r.comp1Mag)
  let errDiffMag := df.map (fun r => r.targetMagerr)
  (List.range df.length).map (fun i => ⟨jd.getD i 0, diffMag.getD i 0, errDiffMag.getD i 0⟩)

/-- Default row used to totalize positional indexing in theorem statements. -/
def defaultResultsRow : ResultsRow := ⟨0, 0, 0, 0, 0, 0, 0, 0⟩

/-- Default output row used to totalize positional indexing in theorem
statements. -/
def defaultDiffMagRow : DiffMagRow := ⟨0, 0, 0⟩

/-- All four magnitude fields of a static-mode record are finite. -/
def finiteStatic (r : StaticRecord) : Bool :=
  r.targetMag.isfinite && r.targetMagerr.isfinite && r.comp1Mag.isfinite && r.comp2Mag.isfinite

/-- All four magnitude fields of a moving-target record are finite. -/
def finiteAst (r : AstRecord) : Bool :=
  r.astMag.isfinite && r.astMagerr.isfinite && r.comp1Mag.isfinite && r.comp2Mag.isfinite

section HelperLemmas

theorem mem_indexed {l : List α} {n i : ℕ} {a : α} :
    (i, a) ∈ indexed n l ↔ ∃ k, i = n + k ∧ l.get? k = some a := by
  induction l generalizing n with
  | nil => simp [indexed]
  | cons x xs ih =>
    simp only [indexed, List.mem_cons, ih, Prod.mk.injEq]
    constructor
    · rintro (⟨rfl, rfl⟩ | ⟨k, rfl, hk⟩)
      · exact ⟨0, by simp⟩
      · exact ⟨k + 1, by omega, by simpa using hk⟩
    · rintro ⟨k, rfl, hk⟩
      cases k with
      | zero => left; simp_all
      | succ k => right; exact ⟨k, by omega, by simpa using hk⟩

theorem mem_indexed_zero {l : List α} {i : ℕ} {a : α} :
    (i, a) ∈ indexed 0 l ↔ l.get? i = some a := by
  rw [mem_indexed]
  constructor
  · rintro ⟨k, rfl, hk⟩; simpa using hk
  · intro h; exact ⟨i, by omega, h⟩

theorem le_fst_of_mem_indexed {l : List α} {n : ℕ} {p : ℕ × α} (h : p ∈ indexed n l) :
    n ≤ p.1 := by
  induction l generalizing n with
  | nil => simp [indexed] at h
  | cons x xs ih =>
    simp only [indexed, List.mem_cons] at h
    rcases h with rfl | h
    · exact le_refl _
    · exact Nat.le_of_succ_le (ih h)

theorem pairwise_indexed {l : List α} {n : ℕ} :
    (indexed n l).Pairwise (fun p q => p.1 < q.1) := by
  induction l generalizing n with
  | nil => exact List.Pairwise.nil
  | cons x xs ih =>
    refine List.Pairwise.cons (fun q hq => ?_) ih
    exact Nat.lt_of_lt_of_le (Nat.lt_succ_self n) (le_fst_of_mem_indexed hq)

theorem argminFirst_eq_none_iff {f : α → ℚ} {l : List α} :
    argminFirst f l = none ↔ l = [] := by
  cases l with
  | nil => simp [argminFirst]
  | cons x xs =>
    simp only [argminFirst]
    constructor
    · intro h
      cases hxs : argminFirst f xs <;> simp [hxs] at h
      split at h <;> simp_all
    · intro h; simp at h

theorem argminFirst_mem {f : α → ℚ} {l : List α} {m : α}
    (h : argminFirst f l = some m) : m ∈ l := by
  induction l generalizing m with
  | nil => simp [argminFirst] at h
  | cons x xs ih =>
    simp only [argminFirst] at h
    cases hxs : argminFirst f xs with
    | none => rw [hxs] at h; simp at h; simp [h]
    | some y =>
      rw [hxs] at h
      simp only at h
      split at h
      · simp at h; simp [h]
      · simp at h; exact List.mem_cons_of_mem _ (ih (h ▸ hxs))

theorem argminFirst_min {f : α → ℚ} {l : List α} {m : α}
    (h : argminFirst f l = some m) : ∀ x ∈ l, f m ≤ f x := by
  induction l generalizing m with
  | nil => simp [argminFirst] at h
  | cons x xs ih =>
    simp only [argminFirst] at h
    intro z hz
    cases hxs : argminFirst f xs with
    | none =>
      rw [hxs] at h; simp at h
      have hnil : xs = [] := argminFirst_eq_none_iff.mp hxs
      subst hnil
      simp at hz
      subst h; subst hz; exact le_refl _
    | some y =>
      rw [hxs] at h
      simp only at h
      by_cases hxy : f x ≤ f y
      · rw [if_pos hxy] at h; simp at h; subst h
        rcases List.mem_cons.mp hz with rfl | hz2
        · exact le_refl _
        · exact le_trans hxy (ih hxs z hz2)
      · rw [if_neg hxy] at h; simp at h; subst h
        rcases List.mem_cons.mp hz with rfl | hz2
        · exact le_of_lt (lt_of_not_le hxy)
        · exact ih hxs z hz2

theorem argminFirst_first {f : α → ℚ} {key : α → ℕ} {l : List α} {m : α}
    (hp : l.Pairwise (fun a b => key a < key b))
    (h : argminFirst f l = some m) :
    ∀ x ∈ l, key x < key m → f m < f x := by
  induction l generalizing m with
  | nil => simp [argminFirst] at h
  | cons x xs ih =>
    have hp2 := List.pairwise_cons.mp hp
    simp only [argminFirst] at h
    intro z hz hlt
    cases hxs : argminFirst f xs with
    | none =>
      rw [hxs] at h; simp at h
      have hnil : xs = [] := argminFirst_eq_none_iff.mp hxs
      subst hnil
      simp at hz
      subst h; subst hz
      exact absurd hlt (lt_irrefl _)
    | some y =>
      rw [hxs] at h
      simp only at h
      by_cases hxy : f x ≤ f y
      · rw [if_pos hxy] at h; simp at h; subst h
        rcases List.mem_cons.mp hz with rfl | hz2
        · exact absurd hlt (lt_irrefl _)
        · exact absurd hlt (by have := hp2.1 z hz2; omega)
      · rw [if_neg hxy] at h; simp at h; subst h
        rcases List.mem_cons.mp hz with rfl | hz2
        · exact lt_of_not_le hxy
        · exact ih hp2.2 hxs z hz2 hlt

theorem listMin_eq_none_iff {l : List ℚ} : listMin l = none ↔ l = [] := by
  cases l with
  | nil => simp [listMin]
  | cons x xs =>
    simp only [listMin]
    cases h : listMin xs <;> simp

theorem listMax_eq_none_iff {l : List ℚ} : listMax l = none ↔ l = [] := by
  cases l with
  | nil => simp [listMax]
  | cons x xs =>
    simp only [listMax]
    cases h : listMax xs <;> simp

theorem listMin_le {l : List ℚ} {m : ℚ} (h : listMin l = some m) :
    m ∈ l ∧ ∀ x ∈ l, m ≤ x := by
  induction l generalizing m with
  | nil => simp [listMin] at h
  | cons x xs ih =>
    simp only [listMin] at h
    cases hxs : listMin xs with
    | none =>
      rw [hxs] at h; simp at h
      have hnil : xs = [] := listMin_eq_none_iff.mp hxs
      subst hnil; subst h
      exact ⟨by simp, by simp⟩
    | some mx =>
      rw [hxs] at h; simp at h; subst h
      obtain ⟨hmem, hle⟩ := ih hxs
      constructor
      · rcases le_total x mx with hc | hc
        · simp [min_eq_left hc]
        · rw [min_eq_right hc]; exact List.mem_cons_of_mem _ hmem
      · intro z hz
        rcases List.mem_cons.mp hz with rfl | hz2
        · exact min_le_left _ _
        · exact le_trans (min_le_right _ _) (hle z hz2)

theorem listMin_eq_some_of {l : List ℚ} {m : ℚ} (hmem : m ∈ l)
    (hle : ∀ x ∈ l, m ≤ x) : listMin l = some m := by
  induction l generalizing m with
  | nil => simp at hmem
  | cons x xs ih =>
    simp only [listMin]
    cases hxs : listMin xs with
    | none =>
      have hnil : xs = [] := listMin_eq_none_iff.mp hxs
      subst hnil
      simp at hmem
      subst hmem; rfl
    | some mx =>
      obtain ⟨hmem2, hle2⟩ := listMin_le hxs
      have h1 : m ≤ x := hle x (by simp)
      have h2 : m ≤ mx := hle mx (List.mem_cons_of_mem _ hmem2)
      have h3 : min x mx = m := by
        rcases List.mem_cons.mp hmem with rfl | hm2
        · exact le_antisymm (min_le_left _ _) (le_min (le_refl _) h2)
        · exact le_antisymm (le_trans (min_le_right _ _) (hle2 m hm2)) (le_min h1 h2)
      simp [h3]

theorem listMin_spec {l : List ℚ} {m : ℚ} :
    listMin l = some m ↔ m ∈ l ∧ ∀ x ∈ l, m ≤ x :=
  ⟨listMin_le, fun hc => listMin_eq_some_of hc.1 hc.2⟩

theorem listMax_le {l : List ℚ} {m : ℚ} (h : listMax l = some m) :
    m ∈ l ∧ ∀ x ∈ l, x ≤ m := by
  induction l generalizing m with
  | nil => simp [listMax] at h
  | cons x xs ih =>
    simp only [listMax] at h
    cases hxs : listMax xs with
    | none =>
      rw [hxs] at h; simp at h
      have hnil : xs = [] := listMax_eq_none_iff.mp hxs
      subst hnil; subst h
      exact ⟨by simp, by simp⟩
    | some mx =>
      rw [hxs] at h; simp at h; subst h
      obtain ⟨hmem, hle⟩ := ih hxs
      constructor
      · rcases le_total x mx with hc | hc
        · rw [max_eq_right hc]; exact List.mem_cons_of_mem _ hmem
        · simp [max_eq_left hc]
      · intro z hz
        rcases List.mem_cons.mp hz with rfl | hz2
        · exact le_max_left _ _
        · exact le_trans (hle z hz2) (le_max_right _ _)

theorem listMax_eq_some_of {l : List ℚ} {m : ℚ} (hmem : m ∈ l)
    (hle : ∀ x ∈ l, x ≤ m) : listMax l = some m := by
  induction l generalizing m with
  | nil => simp at hmem
  | cons x xs ih =>
    simp only [listMax]
    cases hxs : listMax xs with
    | none =>
      have hnil : xs = [] := listMax_eq_none_iff.mp hxs
      subst hnil
      simp at hmem
      subst hmem; rfl
    | some mx =>
      obtain ⟨hmem2, hle2⟩ := listMax_le hxs
      have h1 : x ≤ m := hle x (by simp)
      have h2 : mx ≤ m := hle mx (List.mem_cons_of_mem _ hmem2)
      have h3 : max x mx = m := by
        rcases List.mem_cons.mp hmem with rfl | hm2
        · exact le_antisymm (max_le (le_refl _) h2) (le_max_left _ _)
        · exact le_antisymm (max_le h1 h2) (le_trans (hle2 m hm2) (le_max_right _ _))
      simp [h3]

theorem listMax_spec {l : List ℚ} {m : ℚ} :
    listMax l = some m ↔ m ∈ l ∧ ∀ x ∈ l, x ≤ m :=
  ⟨listMax_le, fun hc => listMax_eq_some_of hc.1 hc.2⟩

theorem listMin_perm {l l2 : List ℚ} (h : l.Perm l2) : listMin l = listMin l2 := by
  cases hm : listMin l with
  | none =>
    rw [listMin_eq_none_iff.mp hm] at h
    rw [listMin_eq_none_iff.mpr h.symm.eq_nil]
  | some m =>
    obtain ⟨hmem, hle⟩ := listMin_spec.mp hm
    exact (listMin_spec.mpr ⟨h.mem_iff.mp hmem, fun x hx => hle x (h.mem_iff.mpr hx)⟩).symm

theorem listMax_perm {l l2 : List ℚ} (h : l.Perm l2) : listMax l = listMax l2 := by
  cases hm : listMax l with
  | none =>
    rw [listMax_eq_none_iff.mp hm] at h
    rw [listMax_eq_none_iff.mpr h.symm.eq_nil]
  | some m =>
    obtain ⟨hmem, hle⟩ := listMax_spec.mp hm
    exact (listMax_spec.mpr ⟨h.mem_iff.mp hmem, fun x hx => hle x (h.mem_iff.mpr hx)⟩).symm

end HelperLemmas

section FindNearestLemmas

/-- Characterization of a successful `find_nearest_object` call. -/
theorem find_nearest_eq_some {sep : SepFun} {df : List Detection} {ra dec maxd : ℚ}
    {i : ℕ} {s : ℚ} (h : find_nearest_object sep df ra dec maxd = some (i, s)) :
    ∃ d, argminFirst (fun p => sep ra dec p.2.alpha p.2.delta)
          ((indexed 0 df).filter (fun p => validCoord p.2)) = some (i, d) ∧
        s = sep ra dec d.alpha d.delta ∧ ¬ maxd < s := by
  unfold find_nearest_object at h
  cases hv : argminFirst (fun p => sep ra dec p.2.alpha p.2.delta)
      ((indexed 0 df).filter (fun p => validCoord p.2)) with
  | none => rw [hv] at h; simp at h
  | some p =>
    rw [hv] at h
    simp only at h
    split at h
    · simp at h
    · simp at h
      exact ⟨p.2, by rw [← h.1], h.2.symm, by rw [← h.2]; assumption⟩

/-- A successful `find_nearest_object` match has separation within the
tolerance (the inclusive threshold test of line 61). -/
theorem find_nearest_le {sep : SepFun} {df : List Detection} {ra dec maxd : ℚ}
    {i : ℕ} {s : ℚ} (h : find_nearest_object sep df ra dec maxd = some (i, s)) :
    s ≤ maxd := by
  obtain ⟨d, _, _, hle⟩ := find_nearest_eq_some h
  exact le_of_not_lt hle

end FindNearestLemmas

/-- C1: for every epoch catalog and reference coordinate, a successful
nearest-object resolution returns a valid detection (dec in [-90, 90], ra in
[0, 360)), whose separation to the reference coordinate is the global
minimum over all valid detections, and strictly smaller than the separation
of every valid detection occurring earlier in catalog order (so on exactly
equal minimal separations the first occurrence in catalog order wins). -/
theorem C1_nearest_object_valid_min_first (sep : SepFun) (df : List Detection)
    (ra dec maxd : ℚ) (i j : ℕ) (s : ℚ) (d : Detection)
    (h : find_nearest_object sep df ra dec maxd = some (i, s)) :
    i < df.length ∧
    validCoord (df.getD i junkDetection) = true ∧
    s = sep ra dec (df.getD i junkDetection).alpha (df.getD i junkDetection).delta ∧
    (df.get? j = some d → validCoord d = true → s ≤ sep ra dec d.alpha d.delta) ∧
    (j < i → df.get? j = some d → validCoord d = true →
      s < sep ra dec d.alpha d.delta) := by
  obtain ⟨dm, hargmin, hs, -⟩ := find_nearest_eq_some h
  have hmemf : (i, dm) ∈ (indexed 0 df).filter (fun p => validCoord p.2) :=
    argminFirst_mem hargmin
  have hmem := List.mem_filter.mp hmemf
  have hget : df.get? i = some dm := mem_indexed_zero.mp hmem.1
  have hvc : validCoord dm = true := by simpa using hmem.2
  have hlen : i < df.length := by
    by_contra hc
    rw [List.get?_eq_none.mpr (le_of_not_lt hc)] at hget
    simp at hget
  have hgetD : df.getD i junkDetection = dm := by
    rw [List.getD_eq_get?, hget]; rfl
  refine ⟨hlen, by rw [hgetD]; exact hvc, by rw [hgetD]; exact hs, ?_, ?_⟩
  · intro hj hvd
    have hjm : (j, d) ∈ (indexed 0 df).filter (fun p => validCoord p.2) :=
      List.mem_filter.mpr ⟨mem_indexed_zero.mpr hj, by simpa using hvd⟩
    rw [hs]
    exact argminFirst_min hargmin (j, d) hjm
  · intro hji hj hvd
    have hjm : (j, d) ∈ (indexed 0 df).filter (fun p => validCoord p.2) :=
      List.mem_filter.mpr ⟨mem_indexed_zero.mpr hj, by simpa using hvd⟩
    have hpw : ((indexed 0 df).filter (fun p => validCoord p.2)).Pairwise
        (fun p q => p.1 < q.1) :=
      List.Pairwise.sublist (List.filter_sublist _) pairwise_indexed
    rw [hs]
    exact argminFirst_first hpw hargmin (j, d) hjm hji

/-- C1 witness: a catalog whose closest row (index 0) is invalid and whose
valid rows at indices 1 and 2 tie at separation 2; resolution returns the
first valid occurrence, index 1. -/
theorem C1_witness :
    find_nearest_object (fun ra dec a d => ratAbs (ra - a) + ratAbs (dec - d))
      [⟨-1, 0, PyFloat.fin 10, PyFloat.fin 1⟩, ⟨2, 0, PyFloat.fin 11, PyFloat.fin 1⟩,
       ⟨0, 2, PyFloat.fin 12, PyFloat.fin 1⟩] 0 0 5 = some (1, 2) ∧
    (1 < ([⟨-1, 0, PyFloat.fin 10, PyFloat.fin 1⟩, ⟨2, 0, PyFloat.fin 11, PyFloat.fin 1⟩,
       ⟨0, 2, PyFloat.fin 12, PyFloat.fin 1⟩] : List Detection).length ∧
     validCoord (([⟨-1, 0, PyFloat.fin 10, PyFloat.fin 1⟩, ⟨2, 0, PyFloat.fin 11, PyFloat.fin 1⟩,
       ⟨0, 2, PyFloat.fin 12, PyFloat.fin 1⟩] : List Detection).getD 1 junkDetection) = true ∧
     (2 : ℚ) = (fun ra dec a d => ratAbs (ra - a) + ratAbs (dec - d)) 0 0
       (([⟨-1, 0, PyFloat.fin 10, PyFloat.fin 1⟩, ⟨2, 0, PyFloat.fin 11, PyFloat.fin 1⟩,
       ⟨0, 2, PyFloat.fin 12, PyFloat.fin 1⟩] : List Detection).getD 1 junkDetection).alpha
       (([⟨-1, 0, PyFloat.fin 10, PyFloat.fin 1⟩, ⟨2, 0, PyFloat.fin 11, PyFloat.fin 1⟩,
       ⟨0, 2, PyFloat.fin 12, PyFloat.fin 1⟩] : List Detection).getD 1 junkDetection).delta ∧
     (([⟨-1, 0, PyFloat.fin 10, PyFloat.fin 1⟩, ⟨2, 0, PyFloat.fin 11, PyFloat.fin 1⟩,
       ⟨0, 2, PyFloat.fin 12, PyFloat.fin 1⟩] : List Detection).get? 2 =
         some ⟨0, 2, PyFloat.fin 12, PyFloat.fin 1⟩ →
       validCoord ⟨0, 2, PyFloat.fin 12, PyFloat.fin 1⟩ = true →
       (2 : ℚ) ≤ (fun ra dec a d => ratAbs (ra - a) + ratAbs (dec - d)) 0 0 0 2) ∧
     (2 < 1 → ([⟨-1, 0, PyFloat.fin 10, PyFloat.fin 1⟩, ⟨2, 0, PyFloat.fin 11, PyFloat.fin 1⟩,
       ⟨0, 2, PyFloat.fin 12, PyFloat.fin 1⟩] : List Detection).get? 2 =
         some ⟨0, 2, PyFloat.fin 12, PyFloat.fin 1⟩ →
       validCoord ⟨0, 2, PyFloat.fin 12, PyFloat.fin 1⟩ = true →
       (2 : ℚ) < (fun ra dec a d => ratAbs (ra - a) + ratAbs (dec - d)) 0 0 0 2)) :=
  ⟨by decide,
   C1_nearest_object_valid_min_first (fun ra dec a d => ratAbs (ra - a) + ratAbs (dec - d))
     [⟨-1, 0, PyFloat.fin 10, PyFloat.fin 1⟩, ⟨2, 0, PyFloat.fin 11, PyFloat.fin 1⟩,
      ⟨0, 2, PyFloat.fin 12, PyFloat.fin 1⟩] 0 0 5 1 2 2
     ⟨0, 2, PyFloat.fin 12, PyFloat.fin 1⟩ (by decide)⟩

/-- C2: nearest-object resolution returns `none` if and only if every valid
detection's separation strictly exceeds `max_arcsec` (vacuously so for a
catalog with no valid detections); equivalently, a minimal separation
exactly equal to the tolerance is accepted. -/
theorem C2_nearest_object_none_iff (sep : SepFun) (df : List Detection)
    (ra dec maxd : ℚ) :
    find_nearest_object sep df ra dec maxd = none ↔
      ∀ j d, df.get? j = some d → validCoord d = true →
        maxd < sep ra dec d.alpha d.delta := by
  unfold find_nearest_object
  cases hv : argminFirst (fun p => sep ra dec p.2.alpha p.2.delta)
      ((indexed 0 df).filter (fun p => validCoord p.2)) with
  | none =>
    have hnil := argminFirst_eq_none_iff.mp hv
    simp only
    constructor
    · intro _ j d hj hvd
      have hjm : (j, d) ∈ (indexed 0 df).filter (fun p => validCoord p.2) :=
        List.mem_filter.mpr ⟨mem_indexed_zero.mpr hj, by simpa using hvd⟩
      rw [hnil] at hjm
      simp at hjm
    · intro _; trivial
  | some p =>
    obtain ⟨i0, d0⟩ := p
    have hmem := List.mem_filter.mp (argminFirst_mem hv)
    have hget : df.get? i0 = some d0 := mem_indexed_zero.mp hmem.1
    have hvc : validCoord d0 = true := by simpa using hmem.2
    simp only
    by_cases hc : maxd < sep ra dec d0.alpha d0.delta
    · rw [if_pos hc]
      constructor
      · intro _ j d hj hvd
        have hjm : (j, d) ∈ (indexed 0 df).filter (fun p => validCoord p.2) :=
          List.mem_filter.mpr ⟨mem_indexed_zero.mpr hj, by simpa using hvd⟩
        exact lt_of_lt_of_le hc (argminFirst_min hv (j, d) hjm)
      · intro _; trivial
    · rw [if_neg hc]
      constructor
      · intro hcontra; simp at hcontra
      · intro hall
        exact absurd (hall i0 d0 hget hvc) hc

/-- A static-mode epoch only ever emits a record whose four magnitude
fields all passed the `np.isfinite` guard of line 181. -/
theorem process_static_epoch_finite {sep : SepFun} {target comp1 comp2 : ℚ × ℚ}
    {e : Epoch} {r : StaticRecord}
    (h : process_static_epoch sep target comp1 comp2 e = some r) :
    finiteStatic r = true := by
  unfold process_static_epoch at h
  split at h
  · simp only [] at h
    split at h
    · simp only [Option.some.injEq] at h
      subst h
      unfold finiteStatic
      assumption
    · simp at h
  · simp at h

/-- A moving-target epoch body only ever emits a record whose four
magnitude fields all passed the `np.isfinite` guard of line 128. -/
theorem asteroid_epoch_body_finite {sep : SepFun} {comp1 comp2 : ℚ × ℚ}
    {positions : List EphemEntry} {e : Epoch} {r : AstRecord}
    (h : asteroid_epoch_body sep comp1 comp2 positions e = some r) :
    finiteAst r = true := by
  unfold asteroid_epoch_body at h
  split at h
  · split at h
    · simp at h
    · split at h
      · simp at h
      · simp only [] at h
        split at h
        · simp only [Option.some.injEq] at h
          subst h
          unfold finiteAst
          assumption
        · simp at h
  · simp at h

/-- The per-epoch asteroid step inherits the finiteness guarantee. -/
theorem process_asteroid_epoch_finite {sep : SepFun} {comp1 comp2 : ℚ × ℚ}
    {mjdMin mjdMax : ℚ} {positions : List EphemEntry} {e : Epoch} {r : AstRecord}
    (h : process_asteroid_epoch sep comp1 comp2 mjdMin mjdMax positions e = some r) :
    finiteAst r = true := by
  unfold process_asteroid_epoch at h
  split at h
  · simp at h
  · exact asteroid_epoch_body_finite h

/-- C3: every record emitted by the photometry reducer, in static or
moving-target mode, has all four magnitude fields finite; an epoch in which
any of these values is non-finite is skipped by the `np.isfinite` guard and
produces no record at all (the record type is fully populated by
construction, and the guard is the last gate before emission). -/
theorem C3_emitted_records_finite (sep : SepFun) (target comp1 comp2 : ℚ × ℚ)
    (epsS epsA : List Epoch) (positions : List EphemEntry)
    (rs : StaticRecord) (rA : AstRecord)
    (h1 : rs ∈ process_static_object_photometry sep target comp1 comp2 epsS)
    (h2 : rA ∈ process_asteroid_photometry sep comp1 comp2 positions epsA) :
    (rs.targetMag.isfinite = true ∧ rs.targetMagerr.isfinite = true ∧
     rs.comp1Mag.isfinite = true ∧ rs.comp2Mag.isfinite = true) ∧
    (rA.astMag.isfinite = true ∧ rA.astMagerr.isfinite = true ∧
     rA.comp1Mag.isfinite = true ∧ rA.comp2Mag.isfinite = true) := by
  constructor
  · obtain ⟨e, -, heq⟩ := List.mem_filterMap.mp h1
    have hf := process_static_epoch_finite heq
    unfold finiteStatic at hf
    simp only [Bool.and_eq_true] at hf
    exact ⟨hf.1.1.1, hf.1.1.2, hf.1.2, hf.2⟩
  · unfold process_asteroid_photometry at h2
    split at h2
    · obtain ⟨e, -, heq⟩ := List.mem_filterMap.mp h2
      have hf := process_asteroid_epoch_finite heq
      unfold finiteAst at hf
      simp only [Bool.and_eq_true] at hf
      exact ⟨hf.1.1.1, hf.1.1.2, hf.1.2, hf.2⟩
    · simp at h2

/-- C3 witness: a concrete epoch that emits one record in each mode, with
all four magnitudes finite. -/
theorem C3_witness :
    (⟨5, 30, 40, 0, PyFloat.fin 12, PyFloat.fin (1/100), PyFloat.fin 13, PyFloat.fin 14⟩ :
        StaticRecord) ∈
      process_static_object_photometry
        (fun ra dec a d => ratAbs (ra - a) + ratAbs (dec - d)) (30, 40) (10, 20) (11, 21)
        [⟨5, none, [⟨10, 20, PyFloat.fin 13, PyFloat.fin (1/100)⟩,
          ⟨11, 21, PyFloat.fin 14, PyFloat.fin (1/100)⟩,
          ⟨30, 40, PyFloat.fin 12, PyFloat.fin (1/100)⟩]⟩] ∧
    (⟨5, 30, 40, 0, PyFloat.fin 12, PyFloat.fin (1/100), PyFloat.fin 13, PyFloat.fin 14⟩ :
        AstRecord) ∈
      process_asteroid_photometry
        (fun ra dec a d => ratAbs (ra - a) + ratAbs (dec - d)) (10, 20) (11, 21)
        [⟨5, 30, 40⟩]
        [⟨5, none, [⟨10, 20, PyFloat.fin 13, PyFloat.fin (1/100)⟩,
          ⟨11, 21, PyFloat.fin 14, PyFloat.fin (1/100)⟩,
          ⟨30, 40, PyFloat.fin 12, PyFloat.fin (1/100)⟩]⟩] ∧
    ((PyFloat.fin 12).isfinite = true ∧ (PyFloat.fin (1/100)).isfinite = true ∧
     (PyFloat.fin 13).isfinite = true ∧ (PyFloat.fin 14).isfinite = true) ∧
    ((PyFloat.fin 12).isfinite = true ∧ (PyFloat.fin (1/100)).isfinite = true ∧
     (PyFloat.fin 13).isfinite = true ∧ (PyFloat.fin 14).isfinite = true) :=
  ⟨by decide, by decide,
   C3_emitted_records_finite
     (fun ra dec a d => ratAbs (ra - a) + ratAbs (dec - d)) (30, 40) (10, 20) (11, 21)
     [⟨5, none, [⟨10, 20, PyFloat.fin 13, PyFloat.fin (1/100)⟩,
       ⟨11, 21, PyFloat.fin 14, PyFloat.fin (1/100)⟩,
       ⟨30, 40, PyFloat.fin 12, PyFloat.fin (1/100)⟩]⟩]
     [⟨5, none, [⟨10, 20, PyFloat.fin 13, PyFloat.fin (1/100)⟩,
       ⟨11, 21, PyFloat.fin 14, PyFloat.fin (1/100)⟩,
       ⟨30, 40, PyFloat.fin 12, PyFloat.fin (1/100)⟩]⟩]
     [⟨5, 30, 40⟩]
     ⟨5, 30, 40, 0, PyFloat.fin 12, PyFloat.fin (1/100), PyFloat.fin 13, PyFloat.fin 14⟩
     ⟨5, 30, 40, 0, PyFloat.fin 12, PyFloat.fin (1/100), PyFloat.fin 13, PyFloat.fin 14⟩
     (by decide) (by decide)⟩

/-- C4: in moving-target mode an epoch strictly below the ephemeris MJD
minimum or strictly above its maximum is rejected with no record; an epoch
exactly at the minimum passes the coverage check (processing proceeds to
the matching body); and the ephemeris position used is the entry with the
closest MJD (nearest sample, no interpolation). The final conjunct ties the
per-epoch step to the full reducer. -/
theorem C4_moving_target_coverage (sep : SepFun) (comp1 comp2 : ℚ × ℚ)
    (positions : List EphemEntry) (eps : List Epoch) (e : Epoch)
    (mjdMin mjdMax mjd : ℚ) (p q : EphemEntry)
    (hmin : listMin (positions.map EphemEntry.mjd) = some mjdMin)
    (hmax : listMax (positions.map EphemEntry.mjd) = some mjdMax) :
    (e.mjd < mjdMin ∨ mjdMax < e.mjd →
      process_asteroid_epoch sep comp1 comp2 mjdMin mjdMax (sortByMJD positions) e = none) ∧
    (e.mjd = mjdMin →
      process_asteroid_epoch sep comp1 comp2 mjdMin mjdMax (sortByMJD positions) e =
        asteroid_epoch_body sep comp1 comp2 (sortByMJD positions) e) ∧
    (find_nearest_mjd_position (sortByMJD positions) mjd = some p →
      p ∈ positions ∧ (q ∈ positions → ratAbs (p.mjd - mjd) ≤ ratAbs (q.mjd - mjd))) ∧
    process_asteroid_photometry sep comp1 comp2 positions eps =
      eps.filterMap
        (process_asteroid_epoch sep comp1 comp2 mjdMin mjdMax (sortByMJD positions)) := by
  have hperm : (sortByMJD positions).Perm positions := List.perm_insertionSort _ _
  have hpermmap : ((sortByMJD positions).map EphemEntry.mjd).Perm
      (positions.map EphemEntry.mjd) := hperm.map _
  have hminS : listMin ((sortByMJD positions).map EphemEntry.mjd) = some mjdMin := by
    rw [listMin_perm hpermmap]; exact hmin
  have hmaxS : listMax ((sortByMJD positions).map EphemEntry.mjd) = some mjdMax := by
    rw [listMax_perm hpermmap]; exact hmax
  have hminmax : mjdMin ≤ mjdMax := by
    have h1 := (listMin_le hmin).1
    exact (listMax_le hmax).2 mjdMin h1
  refine ⟨?_, ?_, ?_, ?_⟩
  · intro hout
    unfold process_asteroid_epoch
    rw [if_pos hout]
  · intro heq
    unfold process_asteroid_epoch
    rw [if_neg]
    rintro (hlt | hgt)
    · rw [heq] at hlt; exact lt_irrefl _ hlt
    · rw [heq] at hgt; exact absurd hminmax (not_le.mpr hgt)
  · intro hf
    refine ⟨hperm.mem_iff.mp (argminFirst_mem hf), fun hq => ?_⟩
    exact argminFirst_min hf q (hperm.mem_iff.mpr hq)
  · unfold process_asteroid_photometry
    rw [hminS, hmaxS]

/-- C4 witness: a one-entry ephemeris at MJD 5; an epoch at MJD 4 triggers
the rejection branch, the nearest-MJD lookup at MJD 7 returns the entry. -/
theorem C4_witness :
    listMin (([⟨5, 30, 40⟩] : List EphemEntry).map EphemEntry.mjd) = some 5 ∧
    listMax (([⟨5, 30, 40⟩] : List EphemEntry).map EphemEntry.mjd) = some 5 ∧
    (((4 : ℚ) < 5 ∨ (5 : ℚ) < 4 →
      process_asteroid_epoch (fun ra dec a d => ratAbs (ra - a) + ratAbs (dec - d))
        (10, 20) (11, 21) 5 5 (sortByMJD [⟨5, 30, 40⟩]) ⟨4, none, []⟩ = none) ∧
    ((4 : ℚ) = 5 →
      process_asteroid_epoch (fun ra dec a d => ratAbs (ra - a) + ratAbs (dec - d))
        (10, 20) (11, 21) 5 5 (sortByMJD [⟨5, 30, 40⟩]) ⟨4, none, []⟩ =
        asteroid_epoch_body (fun ra dec a d => ratAbs (ra - a) + ratAbs (dec - d))
          (10, 20) (11, 21) (sortByMJD [⟨5, 30, 40⟩]) ⟨4, none, []⟩) ∧
    (find_nearest_mjd_position (sortByMJD [⟨5, 30, 40⟩]) 7 = some ⟨5, 30, 40⟩ →
      (⟨5, 30, 40⟩ : EphemEntry) ∈ ([⟨5, 30, 40⟩] : List EphemEntry) ∧
      ((⟨5, 30, 40⟩ : EphemEntry) ∈ ([⟨5, 30, 40⟩] : List EphemEntry) →
        ratAbs ((5 : ℚ) - 7) ≤ ratAbs ((5 : ℚ) - 7))) ∧
    process_asteroid_photometry (fun ra dec a d => ratAbs (ra - a) + ratAbs (dec - d))
        (10, 20) (11, 21) [⟨5, 30, 40⟩] [] =
      List.filterMap
        (process_asteroid_epoch (fun ra dec a d => ratAbs (ra - a) + ratAbs (dec - d))
          (10, 20) (11, 21) 5 5 (sortByMJD [⟨5, 30, 40⟩])) []) :=
  ⟨by decide, by decide,
   C4_moving_target_coverage (fun ra dec a d => ratAbs (ra - a) + ratAbs (dec - d))
     (10, 20) (11, 21) [⟨5, 30, 40⟩] [] ⟨4, none, []⟩ 5 5 7
     ⟨5, 30, 40⟩ ⟨5, 30, 40⟩ (by decide) (by decide)⟩

/-- C5: whenever a moving-target epoch emits a record, the comparison stars
were resolved with the default tolerance of 5 arcseconds (their minimal
separations are at most 5) and the asteroid role was resolved against the
nearest-MJD ephemeris position with the widened tolerance of 20 arcseconds
(the recorded separation is that match's separation and is at most 20). -/
theorem C5_role_tolerances (sep : SepFun) (comp1 comp2 : ℚ × ℚ) (mjdMin mjdMax : ℚ)
    (positions : List EphemEntry) (e : Epoch) (r : AstRecord)
    (h : process_asteroid_epoch sep comp1 comp2 mjdMin mjdMax positions e = some r) :
    default_max_distance = 5 ∧
    (find_nearest_object sep e.df comp1.1 comp1.2 default_max_distance).isSome = true ∧
    ((find_nearest_object sep e.df comp1.1 comp1.2 default_max_distance).getD (0, 0)).2 ≤ 5 ∧
    (find_nearest_object sep e.df comp2.1 comp2.2 default_max_distance).isSome = true ∧
    ((find_nearest_object sep e.df comp2.1 comp2.2 default_max_distance).getD (0, 0)).2 ≤ 5 ∧
    (find_nearest_mjd_position positions e.mjd).isSome = true ∧
    (find_nearest_object sep e.df
      ((find_nearest_mjd_position positions e.mjd).getD ⟨0, 0, 0⟩).ra
      ((find_nearest_mjd_position positions e.mjd).getD ⟨0, 0, 0⟩).dec 20).isSome = true ∧
    r.astSep = ((find_nearest_object sep e.df
      ((find_nearest_mjd_position positions e.mjd).getD ⟨0, 0, 0⟩).ra
      ((find_nearest_mjd_position positions e.mjd).getD ⟨0, 0, 0⟩).dec 20).getD (0, 0)).2 ∧
    r.astSep ≤ 20 := by
  unfold process_asteroid_epoch at h
  split at h
  · simp at h
  · unfold asteroid_epoch_body at h
    cases hc1 : find_nearest_object sep e.df comp1.1 comp1.2 default_max_distance with
    | none => rw [hc1] at h; simp at h
    | some pc1 =>
      cases hc2 : find_nearest_object sep e.df comp2.1 comp2.2 default_max_distance with
      | none => rw [hc1, hc2] at h; simp at h
      | some pc2 =>
        obtain ⟨c1i, s1⟩ := pc1
        obtain ⟨c2i, s2⟩ := pc2
        rw [hc1, hc2] at h
        simp only [] at h
        cases hp : find_nearest_mjd_position positions e.mjd with
        | none => rw [hp] at h; simp at h
        | some astPos =>
          rw [hp] at h
          simp only [] at h
          cases ha : find_nearest_object sep e.df astPos.ra astPos.dec 20 with
          | none => rw [ha] at h; simp at h
          | some pa =>
            obtain ⟨ai, asep⟩ := pa
            rw [ha] at h
            simp only [] at h
            split at h
            · simp only [Option.some.injEq] at h
              subst h
              have hd5 : default_max_distance = 5 := rfl
              refine ⟨rfl, rfl, ?_, rfl, ?_, rfl, ?_, ?_, ?_⟩
              · simpa using hd5 ▸ find_nearest_le hc1
              · simpa using hd5 ▸ find_nearest_le hc2
              · simp only [Option.getD_some]
                rw [ha]
                rfl
              · simp only [Option.getD_some]
                rw [ha]
                rfl
              · exact find_nearest_le ha
            · simp at h

/-- C5 witness: a concrete epoch that emits an asteroid record; both
comparison matches are within 5 arcsec and the asteroid match within 20. -/
theorem C5_witness :
    process_asteroid_epoch (fun ra dec a d => ratAbs (ra - a) + ratAbs (dec - d))
      (10, 20) (11, 21) 5 5 [⟨5, 30, 40⟩]
      ⟨5, none, [⟨10, 20, PyFloat.fin 13, PyFloat.fin (1/100)⟩,
        ⟨11, 21, PyFloat.fin 14, PyFloat.fin (1/100)⟩,
        ⟨30, 40, PyFloat.fin 12, PyFloat.fin (1/100)⟩]⟩ =
      some ⟨5, 30, 40, 0, PyFloat.fin 12, PyFloat.fin (1/100),
        PyFloat.fin 13, PyFloat.fin 14⟩ ∧
    (default_max_distance = 5 ∧
     (find_nearest_object (fun ra dec a d => ratAbs (ra - a) + ratAbs (dec - d))
       [⟨10, 20, PyFloat.fin 13, PyFloat.fin (1/100)⟩,
        ⟨11, 21, PyFloat.fin 14, PyFloat.fin (1/100)⟩,
        ⟨30, 40, PyFloat.fin 12, PyFloat.fin (1/100)⟩] 10 20
       default_max_distance).isSome = true ∧
     ((find_nearest_object (fun ra dec a d => ratAbs (ra - a) + ratAbs (dec - d))
       [⟨10, 20, PyFloat.fin 13, PyFloat.fin (1/100)⟩,
        ⟨11, 21, PyFloat.fin 14, PyFloat.fin (1/100)⟩,
        ⟨30, 40, PyFloat.fin 12, PyFloat.fin (1/100)⟩] 10 20
       default_max_distance).getD (0, 0)).2 ≤ 5 ∧
     (find_nearest_object (fun ra dec a d => ratAbs (ra - a) + ratAbs (dec - d))
       [⟨10, 20, PyFloat.fin 13, PyFloat.fin (1/100)⟩,
        ⟨11, 21, PyFloat.fin 14, PyFloat.fin (1/100)⟩,
        ⟨30, 40, PyFloat.fin 12, PyFloat.fin (1/100)⟩] 11 21
       default_max_distance).isSome = true ∧
     ((find_nearest_object (fun ra dec a d => ratAbs (ra - a) + ratAbs (dec - d))
       [⟨10, 20, PyFloat.fin 13, PyFloat.fin (1/100)⟩,
        ⟨11, 21, PyFloat.fin 14, PyFloat.fin (1/100)⟩,
        ⟨30, 40, PyFloat.fin 12, PyFloat.fin (1/100)⟩] 11 21
       default_max_distance).getD (0, 0)).2 ≤ 5 ∧
     (find_nearest_mjd_position [⟨5, 30, 40⟩] 5).isSome = true ∧
     (find_nearest_object (fun ra dec a d => ratAbs (ra - a) + ratAbs (dec - d))
       [⟨10, 20, PyFloat.fin 13, PyFloat.fin (1/100)⟩,
        ⟨11, 21, PyFloat.fin 14, PyFloat.fin (1/100)⟩,
        ⟨30, 40, PyFloat.fin 12, PyFloat.fin (1/100)⟩]
       ((find_nearest_mjd_position [⟨5, 30, 40⟩] 5).getD ⟨0, 0, 0⟩).ra
       ((find_nearest_mjd_position [⟨5, 30, 40⟩] 5).getD ⟨0, 0, 0⟩).dec 20).isSome = true ∧
     (0 : ℚ) = ((find_nearest_object (fun ra dec a d => ratAbs (ra - a) + ratAbs (dec - d))
       [⟨10, 20, PyFloat.fin 13, PyFloat.fin (1/100)⟩,
        ⟨11, 21, PyFloat.fin 14, PyFloat.fin (1/100)⟩,
        ⟨30, 40, PyFloat.fin 12, PyFloat.fin (1/100)⟩]
       ((find_nearest_mjd_position [⟨5, 30, 40⟩] 5).getD ⟨0, 0, 0⟩).ra
       ((find_nearest_mjd_position [⟨5, 30, 40⟩] 5).getD ⟨0, 0, 0⟩).dec 20).getD (0, 0)).2 ∧
     (0 : ℚ) ≤ 20) :=
  ⟨by decide,
   C5_role_tolerances (fun ra dec a d => ratAbs (ra - a) + ratAbs (dec - d))
     (10, 20) (11, 21) 5 5 [⟨5, 30, 40⟩]
     ⟨5, none, [⟨10, 20, PyFloat.fin 13, PyFloat.fin (1/100)⟩,
       ⟨11, 21, PyFloat.fin 14, PyFloat.fin (1/100)⟩,
       ⟨30, 40, PyFloat.fin 12, PyFloat.fin (1/100)⟩]⟩
     ⟨5, 30, 40, 0, PyFloat.fin 12, PyFloat.fin (1/100), PyFloat.fin 13, PyFloat.fin 14⟩
     (by decide)⟩

/-- C6 counterexample: the claim says the band string "all" is the identity
transform, but `filter_photometry_data` treats "all" as an ordinary band
name: on a single R-band epoch it returns the empty collection, not the
input. (It is the web layer, app.py lines 55-56, that omits the filter
flag when "all" is selected.) -/
theorem C6_counterexample :
    filter_photometry_data [⟨0, some "R", []⟩] (some "all") = [] ∧
    filter_photometry_data [⟨0, some "R", []⟩] (some "all") ≠ [⟨0, some "R", []⟩] := by
  constructor
  · decide
  · decide

/-- C6 amended: a null (absent) band is the identity transform, and for any
band string — including "all", which is not special-cased here — the filter
keeps exactly those epochs whose band label (defaulting to the empty string
when missing) equals the requested band case-insensitively. -/
theorem C6_band_filter (data : List Epoch) (fn : String) (e : Epoch) :
    filter_photometry_data data none = data ∧
    (e ∈ filter_photometry_data data (some fn) ↔
      e ∈ data ∧ pyUpper (e.band.getD "") = pyUpper fn) := by
  constructor
  · rfl
  · unfold filter_photometry_data
    rw [List.mem_filter]
    simp

/-- C7: for every point of the first series the matching loop pairs it with
the nearest-in-time point of the second series — membership and global
minimality of the time difference — and keeps the pair exactly when that
minimal difference is at most the 180-second window (inclusive); a point
whose nearest partner lies outside the window yields no pair. -/
theorem C7_nearest_time_window (other : List AijRow) (results : List ResultsRow)
    (r : ResultsRow) (o x : AijRow)
    (h : argminFirst (fun a => ratAbs (a.mjd - r.mjd)) other = some o) :
    (o ∈ other ∧ (x ∈ other → ratAbs (o.mjd - r.mjd) ≤ ratAbs (x.mjd - r.mjd))) ∧
    (ratAbs (o.mjd - r.mjd) ≤ TIME_THRESHOLD →
      match_row other r = some (mkMatchedPair r o)) ∧
    (TIME_THRESHOLD < ratAbs (o.mjd - r.mjd) → match_row other r = none) ∧
    matching_pairs results other = results.filterMap (match_row other) := by
  refine ⟨⟨argminFirst_mem h, fun hx => argminFirst_min h x hx⟩, ?_, ?_, rfl⟩
  · intro hin
    unfold match_row
    rw [h]
    simp only [Option.some.injEq]
    rw [if_pos hin]
  · intro hout
    unfold match_row
    rw [h]
    simp only []
    rw [if_neg (not_le.mpr hout)]

/-- C7 witness: one point in each series, 100 seconds apart: the pair is
kept, since 100 s lies inside the 180 s window. -/
theorem C7_witness :
    argminFirst (fun a : AijRow => ratAbs (a.mjd - (⟨0, 0, 0, 0, 0, 0, 0, 0⟩ : ResultsRow).mjd))
      [⟨100/86400, 1, 2, 3⟩] = some ⟨100/86400, 1, 2, 3⟩ ∧
    ratAbs (((100 : ℚ)/86400) - 0) ≤ TIME_THRESHOLD ∧
    match_row [⟨100/86400, 1, 2, 3⟩] ⟨0, 0, 0, 0, 0, 0, 0, 0⟩ =
      some (mkMatchedPair ⟨0, 0, 0, 0, 0, 0, 0, 0⟩ ⟨100/86400, 1, 2, 3⟩) :=
  ⟨by decide, by decide,
   (C7_nearest_time_window [⟨100/86400, 1, 2, 3⟩] [] ⟨0, 0, 0, 0, 0, 0, 0, 0⟩
     ⟨100/86400, 1, 2, 3⟩ ⟨100/86400, 1, 2, 3⟩ (by decide)).2.1 (by decide)⟩

/-- C8: the magnitude-to-flux conversion computes exactly
`flux = reference_flux * 10 ^ (-(mag / 2.5))`, propagates the error exactly
as `flux * ((ln 10 / 2.5) * mag_err)` when an error is supplied, and
returns no error component otherwise — closed-form transforms of the
inputs. -/
theorem C8_mag_to_flux_formula (mag me reference_flux : ℝ) :
    (mag_to_flux mag (some me) reference_flux).1 =
      reference_flux * (10 : ℝ) ^ (-(mag / 2.5)) ∧
    (mag_to_flux mag (some me) reference_flux).2 =
      some (reference_flux * (10 : ℝ) ^ (-(mag / 2.5)) * ((Real.log 10 / 2.5) * me)) ∧
    mag_to_flux mag none reference_flux =
      (reference_flux * (10 : ℝ) ^ (-(mag / 2.5)), none) := by
  refine ⟨?_, ?_, ?_⟩ <;> simp [mag_to_flux, neg_div, mul_assoc]

/-- C9 counterexample: the single-table plot normalization uses the raw
minimum MJD as offset, not its floor — on a table whose minimum MJD is 1/2
the offset is 1/2 (≠ ⌊1/2⌋ = 0) and the elapsed hours of that point are 0,
not the 12 the floored formula of the claim would give. -/
theorem C9_counterexample :
    time_offset_plot
      [⟨1/2, 0, 0, 0, PyFloat.fin 0, PyFloat.fin 0, PyFloat.fin 0, PyFloat.fin 0⟩] =
      some (1/2) ∧
    (1/2 : ℚ) ≠ ((⌊(1/2 : ℚ)⌋ : ℤ) : ℚ) ∧
    time_hours_plot
      [⟨1/2, 0, 0, 0, PyFloat.fin 0, PyFloat.fin 0, PyFloat.fin 0, PyFloat.fin 0⟩]
      (1/2) = [0] ∧
    ((1/2 : ℚ) - ((⌊(1/2 : ℚ)⌋ : ℤ) : ℚ)) * 24 = 12 ∧
    (0 : ℚ) ≠ 12 := by
  refine ⟨by decide, by decide, by decide, by decide, by decide⟩

/-- C9 amended: in cross-comparison the offset is the Python `int()` of the
minimum MJD over both series — truncation toward zero, which agrees with
the floor of the claim whenever that minimum is non-negative — while the
single-table plot uses the raw minimum MJD with no rounding at all; elapsed
time in hours is `(mjd - offset) * 24` in both paths. -/
theorem C9_time_normalization (results : List ResultsRow) (other : List AijRow)
    (plotRows : List StaticRecord) (a b off : ℚ)
    (ha : listMin (results.map ResultsRow.mjd) = some a)
    (hb : listMin (other.map AijRow.mjd) = some b)
    (h0 : 0 ≤ min a b) :
    time_offset_compare results other = some (pyInt (min a b)) ∧
    pyInt (min a b) = ⌊min a b⌋ ∧
    time_offset_plot plotRows = listMin (plotRows.map StaticRecord.mjd) ∧
    time_hours_plot plotRows off = plotRows.map (fun s => (s.mjd - off) * 24) ∧
    time_hours_compare (matching_pairs results other) (pyInt (min a b)) =
      (matching_pairs results other).map
        (fun p => (p.mjdOur - ((pyInt (min a b) : ℤ) : ℚ)) * 24) := by
  refine ⟨?_, ?_, rfl, rfl, rfl⟩
  · unfold time_offset_compare
    rw [ha, hb]
  · unfold pyInt
    rw [if_pos h0]

/-- C9 witness: two one-row series with minima 3/2 and 5/2; the compare
offset is `int(3/2) = 1 = ⌊3/2⌋`. -/
theorem C9_witness :
    listMin (([⟨3/2, 0, 0, 0, 0, 0, 0, 0⟩] : List ResultsRow).map ResultsRow.mjd) =
      some (3/2) ∧
    listMin (([⟨5/2, 0, 0, 0⟩] : List AijRow).map AijRow.mjd) = some (5/2) ∧
    (0 : ℚ) ≤ min ((3 : ℚ)/2) (5/2) ∧
    (time_offset_compare [⟨3/2, 0, 0, 0, 0, 0, 0, 0⟩] [⟨5/2, 0, 0, 0⟩] =
      some (pyInt (min ((3 : ℚ)/2) (5/2))) ∧
    pyInt (min ((3 : ℚ)/2) (5/2)) = ⌊min ((3 : ℚ)/2) (5/2)⌋ ∧
    time_offset_plot [] = listMin (([] : List StaticRecord).map StaticRecord.mjd) ∧
    time_hours_plot [] 0 = ([] : List StaticRecord).map (fun s => (s.mjd - 0) * 24) ∧
    time_hours_compare (matching_pairs [⟨3/2, 0, 0, 0, 0, 0, 0, 0⟩] [⟨5/2, 0, 0, 0⟩])
        (pyInt (min ((3 : ℚ)/2) (5/2))) =
      (matching_pairs [⟨3/2, 0, 0, 0, 0, 0, 0, 0⟩] [⟨5/2, 0, 0, 0⟩]).map
        (fun p => (p.mjdOur - ((pyInt (min ((3 : ℚ)/2) (5/2)) : ℤ) : ℚ)) * 24)) :=
  ⟨by decide, by decide, by decide,
   C9_time_normalization [⟨3/2, 0, 0, 0, 0, 0, 0, 0⟩] [⟨5/2, 0, 0, 0⟩] [] (3/2) (5/2) 0
     (by decide) (by decide) (by decide)⟩

/-- C10: every output row of the differential-magnitude conversion carries
`JD_UTC = MJD + 2400000.5`, `diff_mag = TARGET_MAG - COMP1_MAG`, and an
error equal to the target's magnitude error alone — the comparison-star
error is not combined in quadrature (there is no comparison-star error
column at all in the measurement table). -/
theorem C10_diffmag_error_is_target_error (df : List ResultsRow) (i : ℕ)
    (h : i < df.length) :
    (convert_to_differential_magnitude df).length = df.length ∧
    (convert_to_differential_magnitude df).getD i defaultDiffMagRow =
      ⟨(df.getD i defaultResultsRow).mjd + 2400000.5,
       (df.getD i defaultResultsRow).targetMag - (df.getD i defaultResultsRow).comp1Mag,
       (df.getD i defaultResultsRow).targetMagerr⟩ := by
  have hcol : ∀ (f : ResultsRow → ℚ), (df.map f).getD i 0 = f (df.getD i defaultResultsRow) := by
    intro f
    rw [List.getD_eq_getElem?_getD, List.getElem?_map, List.getElem?_eq_getElem h,
        List.getD_eq_getElem?_getD, List.getElem?_eq_getElem h]
    rfl
  constructor
  · simp [convert_to_differential_magnitude]
  · unfold convert_to_differential_magnitude
    simp only []
    rw [List.getD_eq_getElem?_getD, List.getElem?_map, List.getElem?_range h]
    simp only [Option.map_some', Option.getD_some]
    rw [hcol, hcol, hcol]

/-- C10 witness: a one-row table; the reported error is exactly the
target's magnitude error 6. -/
theorem C10_witness :
    0 < ([⟨1, 2, 3, 4, 5, 6, 7, 8⟩] : List ResultsRow).length ∧
    ((convert_to_differential_magnitude [⟨1, 2, 3, 4, 5, 6, 7, 8⟩]).length =
      ([⟨1, 2, 3, 4, 5, 6, 7, 8⟩] : List ResultsRow).length ∧
    (convert_to_differential_magnitude [⟨1, 2, 3, 4, 5, 6, 7, 8⟩]).getD 0 defaultDiffMagRow =
      ⟨(([⟨1, 2, 3, 4, 5, 6, 7, 8⟩] : List ResultsRow).getD 0 defaultResultsRow).mjd +
         2400000.5,
       (([⟨1, 2, 3, 4, 5, 6, 7, 8⟩] : List ResultsRow).getD 0 defaultResultsRow).targetMag -
         (([⟨1, 2, 3, 4, 5, 6, 7, 8⟩] : List ResultsRow).getD 0 defaultResultsRow).comp1Mag,
       (([⟨1, 2, 3, 4, 5, 6, 7, 8⟩] : List ResultsRow).getD 0 defaultResultsRow).targetMagerr⟩) :=
  ⟨by decide,
   C10_diffmag_error_is_target_error [⟨1, 2, 3, 4, 5, 6, 7, 8⟩] 0 (by decide)⟩
